import Mathlib

/-!
Verification of the openchat-backend RTC core: the join-ticket token service
(internal/rtc/token_service.go) and the websocket signaling fabric
(internal/rtc, signaling service and room hub), together with the HTTP
join-ticket handler.

Go strings are byte strings; we model them as lists of naturals (each byte
below 256 where it matters).  Unix timestamps are modelled as integers.
Whitespace trimming is modelled over the ASCII whitespace set.  The JSON
encoder is transcribed from the canonical output of Go encoding/json for the
TicketClaims struct (fields in declaration order, lowercase hex escapes,
HTML-unsafe bytes escaped); the decoder is encoding/json specialised to that
canonical serialisation.  HMAC-SHA256 with the service secret is a fixed
deterministic function of the signed payload, so it is modelled as an
abstract function field of the service.
-/

/-- A Go string: a sequence of bytes. -/
abbrev GoStr := List Nat

/-- Byte string of an ASCII Lean string literal. -/
def gs (s : String) : GoStr := s.toList.map Char.toNat

/-- ASCII whitespace, as in the fast path of strings.TrimSpace. -/
def isSpaceByte (b : Nat) : Bool :=
  b = 32 || b = 9 || b = 10 || b = 13 || b = 11 || b = 12

/-- Drop leading whitespace. -/
def trimLeftB : GoStr → GoStr
  | [] => []
  | b :: t => if isSpaceByte b then trimLeftB t else b :: t

/-- strings.TrimSpace on byte strings (ASCII whitespace). -/
def trimB (s : GoStr) : GoStr :=
  ((trimLeftB ((trimLeftB s).reverse)).reverse)

/-- rtc.Permissions (types.go). -/
structure Permissions where
  speak : Bool
  video : Bool
  screenshare : Bool
deriving DecidableEq, Repr

/-- rtc.TicketClaims (types.go), JSON field order as declared. -/
structure TicketClaims where
  serverId : GoStr
  channelId : GoStr
  userUid : GoStr
  deviceId : GoStr
  permissions : Permissions
  expiresAt : Int
  issuedAt : Int
  jti : GoStr
deriving DecidableEq, Repr

/-- rtc.IssueTicketInput (token_service.go). -/
structure IssueTicketInput where
  serverId : GoStr
  channelId : GoStr
  userUid : GoStr
  deviceId : GoStr
  permissions : Permissions
deriving DecidableEq, Repr

/-- Lowercase hex digit, as in encoding/json. -/
def hexDigitChar (n : Nat) : Nat := if n < 10 then 48 + n else 87 + n

/--
One byte of encoding/json string escaping: quote and backslash get a
backslash escape, newline/carriage-return/tab get their short escapes, other
control bytes and the HTML-unsafe bytes < > & get a lowercase \u00xx escape,
everything else is emitted raw.
-/
def escByte (b : Nat) : GoStr :=
  if b = 34 then [92, 34]
  else if b = 92 then [92, 92]
  else if b = 10 then [92, 110]
  else if b = 13 then [92, 114]
  else if b = 9 then [92, 116]
  else if b < 32 ∨ b = 60 ∨ b = 62 ∨ b = 38 then
    [92, 117, 48, 48, hexDigitChar (b / 16), hexDigitChar (b % 16)]
  else [b]

/-- Escape a whole byte string. -/
def escBytes : GoStr → GoStr
  | [] => []
  | b :: t => escByte b ++ escBytes t

/-- A JSON string literal: quote, escaped body, quote. -/
def qstr (s : GoStr) : GoStr := 34 :: (escBytes s ++ [34])

/-- Decimal digits, most significant first; fuel bounds the recursion. -/
def natDecFuel : Nat → Nat → GoStr
  | 0, _ => []
  | fuel + 1, n =>
    if n < 10 then [48 + n] else natDecFuel fuel (n / 10) ++ [48 + n % 10]

/-- Decimal digits of a natural number, most significant first. -/
def natDec (n : Nat) : GoStr := natDecFuel (n + 1) n

/-- Decimal rendering of an integer, as encoding/json renders int64. -/
def intDec (n : Int) : GoStr :=
  if n < 0 then 45 :: natDec n.natAbs else natDec n.natAbs

/-- JSON booleans. -/
def boolDec (b : Bool) : GoStr := if b then gs "true" else gs "false"

/-- json.Marshal of TicketClaims: the canonical Go serialisation. -/
def marshalClaims (c : TicketClaims) : GoStr :=
  gs "\x7b\"server_id\":" ++ qstr c.serverId ++
  gs ",\"channel_id\":" ++ qstr c.channelId ++
  gs ",\"user_uid\":" ++ qstr c.userUid ++
  gs ",\"device_id\":" ++ qstr c.deviceId ++
  gs ",\"permissions\":\x7b\"speak\":" ++ boolDec c.permissions.speak ++
  gs ",\"video\":" ++ boolDec c.permissions.video ++
  gs ",\"screenshare\":" ++ boolDec c.permissions.screenshare ++
  gs "\x7d,\"exp\":" ++ intDec c.expiresAt ++
  gs ",\"iat\":" ++ intDec c.issuedAt ++
  gs ",\"jti\":" ++ qstr c.jti ++
  gs "\x7d"

/-- Expect a literal byte sequence; return the remainder. -/
def pLit : GoStr → GoStr → Option GoStr
  | [], s => some s
  | _ :: _, [] => none
  | l :: lt, b :: bt => if b = l then pLit lt bt else none

/-- Value of a hex digit byte. -/
def hexVal (b : Nat) : Option Nat :=
  if 48 ≤ b ∧ b ≤ 57 then some (b - 48)
  else if 97 ≤ b ∧ b ≤ 102 then some (b - 87)
  else if 65 ≤ b ∧ b ≤ 70 then some (b - 55)
  else none

/-- Short escape code to escaped byte. -/
def escCode (e : Nat) : Option Nat :=
  if e = 34 then some 34
  else if e = 92 then some 92
  else if e = 47 then some 47
  else if e = 110 then some 10
  else if e = 114 then some 13
  else if e = 116 then some 9
  else if e = 98 then some 8
  else if e = 102 then some 12
  else none

/-- Body of a JSON string literal after the opening quote, with escapes. -/
def pStrBody : GoStr → Option (GoStr × GoStr)
  | [] => none
  | b :: r =>
    if b = 34 then some ([], r)
    else if b = 92 then
      match r with
      | [] => none
      | e :: r2 =>
        if e = 117 then
          match r2 with
          | h1 :: h2 :: h3 :: h4 :: r3 =>
            match hexVal h1, hexVal h2, hexVal h3, hexVal h4 with
            | some v1, some v2, some v3, some v4 =>
              (pStrBody r3).map (fun p => ((((v1 * 16 + v2) * 16 + v3) * 16 + v4) :: p.1, p.2))
            | _, _, _, _ => none
          | _ => none
        else
          match escCode e with
          | some v => (pStrBody r2).map (fun p => (v :: p.1, p.2))
          | none => none
    else (pStrBody r).map (fun p => (b :: p.1, p.2))

/-- A JSON string literal including the opening quote. -/
def pQStr : GoStr → Option (GoStr × GoStr)
  | [] => none
  | b :: r => if b = 34 then pStrBody r else none

/-- ASCII decimal digit test. -/
def isDigitB (b : Nat) : Bool := 48 ≤ b && b ≤ 57

/-- Split a byte string into its leading digit run and the remainder. -/
def spanDigits : GoStr → (GoStr × GoStr)
  | [] => ([], [])
  | b :: t =>
    if isDigitB b then
      let p := spanDigits t
      (b :: p.1, p.2)
    else ([], b :: t)

/-- Numeric value of a digit run. -/
def digitsVal (ds : GoStr) : Nat := ds.foldl (fun a d => a * 10 + (d - 48)) 0

/-- Parse a natural number (at least one digit). -/
def pNat (s : GoStr) : Option (Nat × GoStr) :=
  let p := spanDigits s
  if p.1 = [] then none else some (digitsVal p.1, p.2)

/-- Parse an optionally negated integer. -/
def pInt (s : GoStr) : Option (Int × GoStr) :=
  match s with
  | [] => none
  | b :: r =>
    if b = 45 then (pNat r).map (fun p => (-(p.1 : Int), p.2))
    else (pNat (b :: r)).map (fun p => ((p.1 : Int), p.2))

/-- Parse a JSON boolean keyword. -/
def pBool (s : GoStr) : Option (Bool × GoStr) :=
  match pLit (gs "true") s with
  | some r => some (true, r)
  | none =>
    match pLit (gs "false") s with
    | some r => some (false, r)
    | none => none

/-- A key literal followed by a JSON string value. -/
def pStrField (pre : String) (s : GoStr) : Option (GoStr × GoStr) :=
  (pLit (gs pre) s).bind pQStr

/-- A key literal followed by a JSON boolean value. -/
def pBoolField (pre : String) (s : GoStr) : Option (Bool × GoStr) :=
  (pLit (gs pre) s).bind pBool

/-- A key literal followed by a JSON integer value. -/
def pIntField (pre : String) (s : GoStr) : Option (Int × GoStr) :=
  (pLit (gs pre) s).bind pInt

/-- json.Unmarshal into TicketClaims, specialised to the canonical form. -/
def parseClaims (s : GoStr) : Option TicketClaims :=
  (pStrField "\x7b\"server_id\":" s).bind fun sid =>
  (pStrField ",\"channel_id\":" sid.2).bind fun cid =>
  (pStrField ",\"user_uid\":" cid.2).bind fun uid =>
  (pStrField ",\"device_id\":" uid.2).bind fun did =>
  (pBoolField ",\"permissions\":\x7b\"speak\":" did.2).bind fun sp =>
  (pBoolField ",\"video\":" sp.2).bind fun vid =>
  (pBoolField ",\"screenshare\":" vid.2).bind fun scr =>
  (pIntField "\x7d,\"exp\":" scr.2).bind fun expv =>
  (pIntField ",\"iat\":" expv.2).bind fun iatv =>
  (pStrField ",\"jti\":" iatv.2).bind fun jtiv =>
  (pLit (gs "\x7d") jtiv.2).bind fun rest =>
  if rest = [] then
    some ⟨sid.1, cid.1, uid.1, did.1, ⟨sp.1, vid.1, scr.1⟩, expv.1, iatv.1, jtiv.1⟩
  else none

/-- base64url alphabet character for a sextet. -/
def b64Char (n : Nat) : Nat :=
  if n < 26 then 65 + n
  else if n < 52 then 71 + n
  else if n < 62 then n - 4
  else if n = 62 then 45
  else 95

/-- Sextet value of a base64url alphabet character. -/
def b64Val (c : Nat) : Option Nat :=
  if 65 ≤ c ∧ c ≤ 90 then some (c - 65)
  else if 97 ≤ c ∧ c ≤ 122 then some (c - 71)
  else if 48 ≤ c ∧ c ≤ 57 then some (c + 4)
  else if c = 45 then some 62
  else if c = 95 then some 63
  else none

/-- base64.RawURLEncoding.EncodeToString on bytes (no padding). -/
def b64Encode : GoStr → GoStr
  | [] => []
  | [b1] => [b64Char (b1 / 4), b64Char (b1 % 4 * 16)]
  | [b1, b2] => [b64Char (b1 / 4), b64Char (b1 % 4 * 16 + b2 / 16), b64Char (b2 % 16 * 4)]
  | b1 :: b2 :: b3 :: rest =>
    b64Char (b1 / 4) :: b64Char (b1 % 4 * 16 + b2 / 16) ::
    b64Char (b2 % 16 * 4 + b3 / 64) :: b64Char (b3 % 64) :: b64Encode rest

/-- base64.RawURLEncoding.DecodeString (no padding accepted). -/
def b64Decode : GoStr → Option GoStr
  | [] => some []
  | [_] => none
  | [c1, c2] => do
    let s1 ← b64Val c1
    let s2 ← b64Val c2
    some [s1 * 4 + s2 / 16]
  | [c1, c2, c3] => do
    let s1 ← b64Val c1
    let s2 ← b64Val c2
    let s3 ← b64Val c3
    some [s1 * 4 + s2 / 16, s2 % 16 * 16 + s3 / 4]
  | c1 :: c2 :: c3 :: c4 :: rest => do
    let s1 ← b64Val c1
    let s2 ← b64Val c2
    let s3 ← b64Val c3
    let s4 ← b64Val c4
    let tail ← b64Decode rest
    some ((s1 * 4 + s2 / 16) :: (s2 % 16 * 16 + s3 / 4) :: (s3 % 4 * 64 + s4) :: tail)

/-- strings.Split on the dot byte. -/
def splitDot : GoStr → List GoStr
  | [] => [[]]
  | b :: t =>
    if b = 46 then [] :: splitDot t
    else
      match splitDot t with
      | [] => [[b]]
      | h :: r => (b :: h) :: r

/--
rtc.TokenService: the HMAC-SHA256 signature with the fixed secret is a
deterministic function of the signed payload string, modelled abstractly.
-/
structure TokenSvc where
  sign : GoStr → GoStr
  ttl : Int

/-- The usedJTIs map: jti to expiry. -/
abbrev JtiMap := List (GoStr × Int)

/-- Go map lookup on the usedJTIs map. -/
def lookupJti : JtiMap → GoStr → Option Int
  | [], _ => none
  | (k, v) :: t, j => if k = j then some v else lookupJti t j

/-- gcUsedJTIs: when at least 5000 entries, purge those expiring at or before now. -/
def gcJti (m : JtiMap) (now : Int) : JtiMap :=
  if m.length < 5000 then m else m.filter (fun e => decide (now < e.2))

/-- Result of ParseAndConsume. -/
inductive ConsumeResult where
  | ok (c : TicketClaims)
  | errInvalid
  | errExpired
  | errReplay
deriving DecidableEq, Repr

/--
The consume half of ParseAndConsume (token_service.go lines 100 to 113):
expiry check first, then under the mutex garbage-collect, replay-check and
record the jti.
-/
def consumeClaims (st : JtiMap) (now : Int) (c : TicketClaims) : ConsumeResult × JtiMap :=
  if c.expiresAt ≤ now then (.errExpired, st)
  else if lookupJti (gcJti st now) c.jti = none then
    (.ok c, (c.jti, c.expiresAt) :: gcJti st now)
  else (.errReplay, gcJti st now)

/--
The pure parse half of ParseAndConsume (lines 72 to 98): split on the dot,
decode the signature, constant-time-compare against the recomputed HMAC,
decode the payload and deserialise the claims.  Every failure is the
invalid-ticket error.
-/
def parseTicketPure (sv : TokenSvc) (ticket : GoStr) : Option TicketClaims :=
  match splitDot ticket with
  | [payloadEnc, sigEnc] =>
    (b64Decode sigEnc).bind fun sig =>
      if sig = sv.sign payloadEnc then
        (b64Decode payloadEnc).bind fun payloadBytes => parseClaims payloadBytes
      else none
  | _ => none

/-- TokenService.ParseAndConsume as a state transformer on the usedJTIs map. -/
def parseAndConsume (sv : TokenSvc) (st : JtiMap) (now : Int) (ticket : GoStr) :
    ConsumeResult × JtiMap :=
  match parseTicketPure sv ticket with
  | none => (.errInvalid, st)
  | some c => consumeClaims st now c

/--
A run of ParseAndConsume calls against one TokenService: the final state of
the consumed-jti map after processing each (now, ticket) call in order.
-/
def pacSteps (sv : TokenSvc) : JtiMap → List (Int × GoStr) → JtiMap
  | st, [] => st
  | st, x :: rest => pacSteps sv (parseAndConsume sv st x.1 x.2).2 rest

/--
TokenService.Issue.  now is the current unix time and jti the fresh UUID,
both inputs of the model since Go draws them from the environment.
-/
def issue (sv : TokenSvc) (now : Int) (jti : GoStr) (inp : IssueTicketInput) :
    Option (GoStr × TicketClaims) :=
  if trimB inp.serverId = [] ∨ trimB inp.channelId = [] then none
  else
    let claims : TicketClaims :=
      ⟨inp.serverId, inp.channelId, inp.userUid, inp.deviceId, inp.permissions,
        now + sv.ttl, now, jti⟩
    let payloadEncoded := b64Encode (marshalClaims claims)
    let signatureEncoded := b64Encode (sv.sign payloadEncoded)
    some (payloadEncoded ++ 46 :: signatureEncoded, claims)

theorem b64Val_b64Char : ∀ n, n < 64 → b64Val (b64Char n) = some n := by decide

theorem b64Char_ne_dot : ∀ n, n < 64 → b64Char n ≠ 46 := by decide

theorem hexVal_hexDigitChar : ∀ x, x < 16 → hexVal (hexDigitChar x) = some x := by decide

theorem b64Encode_no_dot (bs : GoStr) (h : ∀ b ∈ bs, b < 256) :
    ∀ c ∈ b64Encode bs, c ≠ 46 := by
  induction bs using b64Encode.induct with
  | case1 => simp [b64Encode]
  | case2 b1 =>
    have h1 : b1 < 256 := h b1 (by simp)
    simp only [b64Encode, List.mem_cons, List.not_mem_nil, or_false]
    rintro c (rfl | rfl) <;> exact b64Char_ne_dot _ (by omega)
  | case3 b1 b2 =>
    have h1 : b1 < 256 := h b1 (by simp)
    have h2 : b2 < 256 := h b2 (by simp)
    simp only [b64Encode, List.mem_cons, List.not_mem_nil, or_false]
    rintro c (rfl | rfl | rfl) <;> exact b64Char_ne_dot _ (by omega)
  | case4 b1 b2 b3 rest ih =>
    have h1 : b1 < 256 := h b1 (by simp)
    have h2 : b2 < 256 := h b2 (by simp)
    have h3 : b3 < 256 := h b3 (by simp)
    have hrest : ∀ b ∈ rest, b < 256 := fun b hb => h b (by simp [hb])
    simp only [b64Encode, List.mem_cons]
    rintro c (rfl | rfl | rfl | rfl | hc)
    · exact b64Char_ne_dot _ (by omega)
    · exact b64Char_ne_dot _ (by omega)
    · exact b64Char_ne_dot _ (by omega)
    · exact b64Char_ne_dot _ (by omega)
    · exact ih hrest c hc

theorem b64_roundtrip (bs : GoStr) (h : ∀ b ∈ bs, b < 256) :
    b64Decode (b64Encode bs) = some bs := by
  induction bs using b64Encode.induct with
  | case1 => rfl
  | case2 b1 =>
    have h1 : b1 < 256 := h b1 (by simp)
    simp only [b64Encode, b64Decode]
    rw [b64Val_b64Char _ (by omega), b64Val_b64Char _ (by omega)]
    simp only [Option.bind_eq_bind, Option.some_bind, Option.some.injEq]
    congr 1
    omega
  | case3 b1 b2 =>
    have h1 : b1 < 256 := h b1 (by simp)
    have h2 : b2 < 256 := h b2 (by simp)
    simp only [b64Encode, b64Decode]
    rw [b64Val_b64Char _ (by omega), b64Val_b64Char _ (by omega),
      b64Val_b64Char _ (by omega)]
    simp only [Option.bind_eq_bind, Option.some_bind, Option.some.injEq]
    congr 1
    · omega
    · congr 1; omega
  | case4 b1 b2 b3 rest ih =>
    have h1 : b1 < 256 := h b1 (by simp)
    have h2 : b2 < 256 := h b2 (by simp)
    have h3 : b3 < 256 := h b3 (by simp)
    have hrest : ∀ b ∈ rest, b < 256 := fun b hb => h b (by simp [hb])
    simp only [b64Encode, b64Decode]
    rw [b64Val_b64Char _ (by omega), b64Val_b64Char _ (by omega),
      b64Val_b64Char _ (by omega), b64Val_b64Char _ (by omega), ih hrest]
    simp only [Option.bind_eq_bind, Option.some_bind, Option.some.injEq]
    have e1 : b1 / 4 * 4 + (b1 % 4 * 16 + b2 / 16) / 16 = b1 := by omega
    have e2 : (b1 % 4 * 16 + b2 / 16) % 16 * 16 + (b2 % 16 * 4 + b3 / 64) / 4 = b2 := by omega
    have e3 : (b2 % 16 * 4 + b3 / 64) % 4 * 64 + b3 % 64 = b3 := by omega
    rw [e1, e2, e3]

theorem splitDot_no_dot (b : GoStr) (h : 46 ∉ b) : splitDot b = [b] := by
  induction b with
  | nil => rfl
  | cons x t ih =>
    have hx : ¬ (x = 46) := fun e => h (by simp [e])
    have ht : 46 ∉ t := fun m => h (by simp [m])
    simp [splitDot, hx, ih ht]

theorem splitDot_append (a b : GoStr) (ha : 46 ∉ a) (hb : 46 ∉ b) :
    splitDot (a ++ 46 :: b) = [a, b] := by
  induction a with
  | nil => simp [splitDot, splitDot_no_dot b hb]
  | cons x t ih =>
    have hx : ¬ (x = 46) := fun e => ha (by simp [e])
    have ht : 46 ∉ t := fun m => ha (by simp [m])
    simp [splitDot, hx, ih ht]

theorem pStrBody_quote (r : GoStr) : pStrBody (34 :: r) = some ([], r) := by
  rw [pStrBody.eq_def]; simp

theorem pStrBody_raw (b : Nat) (hb34 : ¬ (b = 34)) (hb92 : ¬ (b = 92)) (r : GoStr) :
    pStrBody (b :: r) = (pStrBody r).map (fun p => (b :: p.1, p.2)) := by
  rw [pStrBody.eq_def]; simp [hb34, hb92]

theorem pStrBody_escShort (e v : Nat) (he : ¬ (e = 117)) (hec : escCode e = some v)
    (r : GoStr) :
    pStrBody (92 :: e :: r) = (pStrBody r).map (fun p => (v :: p.1, p.2)) := by
  rw [pStrBody.eq_def]; simp [he, hec]

theorem pStrBody_uEsc (h1 h2 h3 h4 v1 v2 v3 v4 : Nat) (r : GoStr)
    (e1 : hexVal h1 = some v1) (e2 : hexVal h2 = some v2)
    (e3 : hexVal h3 = some v3) (e4 : hexVal h4 = some v4) :
    pStrBody (92 :: 117 :: h1 :: h2 :: h3 :: h4 :: r) =
      (pStrBody r).map (fun p => ((((v1 * 16 + v2) * 16 + v3) * 16 + v4) :: p.1, p.2)) := by
  rw [pStrBody.eq_def]; simp [e1, e2, e3, e4]

theorem pStrBody_esc (s rest : GoStr) :
    pStrBody (escBytes s ++ 34 :: rest) = some (s, rest) := by
  induction s with
  | nil => simpa [escBytes] using pStrBody_quote rest
  | cons b t ih =>
    show pStrBody ((escByte b ++ escBytes t) ++ 34 :: rest) = _
    rw [List.append_assoc]
    unfold escByte
    split_ifs with h1 h2 h3 h4 h5 h6
    · subst h1
      rw [List.cons_append, List.cons_append, List.nil_append,
        pStrBody_escShort 34 34 (by omega) (by decide), ih]
      rfl
    · subst h2
      rw [List.cons_append, List.cons_append, List.nil_append,
        pStrBody_escShort 92 92 (by omega) (by decide), ih]
      rfl
    · subst h3
      rw [List.cons_append, List.cons_append, List.nil_append,
        pStrBody_escShort 110 10 (by omega) (by decide), ih]
      rfl
    · subst h4
      rw [List.cons_append, List.cons_append, List.nil_append,
        pStrBody_escShort 114 13 (by omega) (by decide), ih]
      rfl
    · subst h5
      rw [List.cons_append, List.cons_append, List.nil_append,
        pStrBody_escShort 116 9 (by omega) (by decide), ih]
      rfl
    · have hb : b < 256 := by omega
      simp only [List.cons_append, List.nil_append]
      rw [pStrBody_uEsc 48 48 (hexDigitChar (b / 16)) (hexDigitChar (b % 16))
        0 0 (b / 16) (b % 16) _ (by decide) (by decide)
        (hexVal_hexDigitChar _ (by omega)) (hexVal_hexDigitChar _ (by omega)), ih]
      simp
      omega
    · rw [List.singleton_append, pStrBody_raw b h1 h2, ih]
      rfl

theorem pQStr_qstr (s rest : GoStr) : pQStr (qstr s ++ rest) = some (s, rest) := by
  show pQStr ((34 :: (escBytes s ++ [34])) ++ rest) = _
  simp only [List.cons_append, List.append_assoc, List.singleton_append]
  simp [pQStr, pStrBody_esc]

theorem natDecFuel_congr (f1 : Nat) : ∀ f2 n, n < f1 → n < f2 →
    natDecFuel f1 n = natDecFuel f2 n := by
  induction f1 with
  | zero => omega
  | succ g ihg =>
    intro f2 n hn1 hn2
    cases f2 with
    | zero => omega
    | succ h =>
      rw [natDecFuel, natDecFuel]
      split_ifs with hsmall
      · rfl
      · rw [ihg h (n / 10) (by omega) (by omega)]

theorem natDec_eq (n : Nat) :
    natDec n = if n < 10 then [48 + n] else natDec (n / 10) ++ [48 + n % 10] := by
  show natDecFuel (n + 1) n = _
  rw [natDecFuel]
  split_ifs with h
  · rfl
  · rw [natDecFuel_congr n (n / 10 + 1) (n / 10) (by omega) (by omega)]
    rfl

theorem natDec_digits (n : Nat) : ∀ d ∈ natDec n, 48 ≤ d ∧ d ≤ 57 := by
  induction n using Nat.strong_induction_on with
  | _ n ih =>
    rw [natDec_eq]
    split_ifs with h
    · intro d hd
      simp at hd
      omega
    · intro d hd
      rcases List.mem_append.1 hd with hl | hr
      · exact ih (n / 10) (Nat.div_lt_self (by omega) (by omega)) d hl
      · simp at hr
        omega

theorem natDec_ne_nil (n : Nat) : natDec n ≠ [] := by
  rw [natDec_eq]
  split_ifs with h
  · simp
  · simp

theorem digitsVal_append_digit (xs : GoStr) (d : Nat) :
    digitsVal (xs ++ [d]) = digitsVal xs * 10 + (d - 48) := by
  simp [digitsVal, List.foldl_append]

theorem digitsVal_natDec (n : Nat) : digitsVal (natDec n) = n := by
  induction n using Nat.strong_induction_on with
  | _ n ih =>
    rw [natDec_eq]
    split_ifs with h
    · simp only [digitsVal, List.foldl_cons, List.foldl_nil]
      omega
    · rw [digitsVal_append_digit, ih (n / 10) (Nat.div_lt_self (by omega) (by omega))]
      omega

theorem spanDigits_exact (ds rest : GoStr) (hds : ∀ d ∈ ds, isDigitB d = true)
    (hrest : ∀ b, rest.head? = some b → isDigitB b = false) :
    spanDigits (ds ++ rest) = (ds, rest) := by
  induction ds with
  | nil =>
    simp only [List.nil_append]
    cases rest with
    | nil => rfl
    | cons b t =>
      have hb : isDigitB b = false := hrest b rfl
      simp [spanDigits, hb]
  | cons d t ih =>
    have hd : isDigitB d = true := hds d (by simp)
    have ht : ∀ x ∈ t, isDigitB x = true := fun x hx => hds x (by simp [hx])
    simp [spanDigits, hd, ih ht]

theorem pNat_natDec (n : Nat) (rest : GoStr)
    (hrest : ∀ b, rest.head? = some b → isDigitB b = false) :
    pNat (natDec n ++ rest) = some (n, rest) := by
  have hds : ∀ d ∈ natDec n, isDigitB d = true := by
    intro d hd
    have := natDec_digits n d hd
    simp [isDigitB]
    omega
  simp [pNat, spanDigits_exact _ _ hds hrest, natDec_ne_nil n, digitsVal_natDec]

theorem natDec_head_digit (n : Nat) :
    ∀ b, (natDec n).head? = some b → 48 ≤ b ∧ b ≤ 57 := by
  intro b hb
  apply natDec_digits n
  cases h : natDec n with
  | nil => exact absurd h (natDec_ne_nil n)
  | cons x t =>
    rw [h] at hb
    simp at hb
    simp [h, hb]

theorem pInt_intDec (n : Int) (rest : GoStr)
    (hrest : ∀ b, rest.head? = some b → isDigitB b = false) :
    pInt (intDec n ++ rest) = some (n, rest) := by
  unfold intDec
  split_ifs with hneg
  · rw [List.cons_append, pInt.eq_def]
    simp only [if_pos rfl]
    rw [pNat_natDec _ _ hrest]
    have hcast : ((n.natAbs : Int)) = -n := Int.ofNat_natAbs_of_nonpos (by omega)
    simp [hcast]
  · cases h : natDec n.natAbs with
    | nil => exact absurd h (natDec_ne_nil _)
    | cons x t =>
      have hx : 48 ≤ x ∧ x ≤ 57 := by
        apply natDec_head_digit n.natAbs
        simp [h]
      show pInt ((x :: t) ++ rest) = _
      rw [List.cons_append, pInt.eq_def]
      simp only []
      rw [if_neg (by omega)]
      rw [← List.cons_append, ← h, pNat_natDec _ _ hrest]
      have hcast : ((n.natAbs : Int)) = n := Int.natAbs_of_nonneg (by omega)
      simp [hcast]

theorem pLit_self (l r : GoStr) : pLit l (l ++ r) = some r := by
  induction l with
  | nil => rfl
  | cons b t ih => simp [pLit, ih]

theorem pBool_boolDec (b : Bool) (rest : GoStr) :
    pBool (boolDec b ++ rest) = some (b, rest) := by
  have htrue : gs "true" = [116, 114, 117, 101] := by decide
  have hfalse : gs "false" = [102, 97, 108, 115, 101] := by decide
  cases b
  · have hfail : pLit (gs "true") (boolDec false ++ rest) = none := by
      rw [htrue, boolDec]
      simp only [Bool.false_eq_true, if_false, hfalse]
      simp [pLit]
    simp only [pBool, boolDec, Bool.false_eq_true, if_false] at hfail ⊢
    rw [hfail, pLit_self]
  · simp only [pBool, boolDec, if_true]
    rw [pLit_self]

theorem pStrField_self (pre : String) (v rest : GoStr) :
    pStrField pre (gs pre ++ (qstr v ++ rest)) = some (v, rest) := by
  simp [pStrField, pLit_self, pQStr_qstr]

theorem pBoolField_self (pre : String) (v : Bool) (rest : GoStr) :
    pBoolField pre (gs pre ++ (boolDec v ++ rest)) = some (v, rest) := by
  simp [pBoolField, pLit_self, pBool_boolDec]

theorem pIntField_self (pre : String) (v : Int) (rest : GoStr)
    (hrest : ∀ b, rest.head? = some b → isDigitB b = false) :
    pIntField pre (gs pre ++ (intDec v ++ rest)) = some (v, rest) := by
  simp [pIntField, pLit_self, pInt_intDec _ _ hrest]

theorem nondigit_comma_head (xs tail : GoStr) (h : xs = 44 :: tail) (rest : GoStr) :
    ∀ b, (xs ++ rest).head? = some b → isDigitB b = false := by
  subst h
  intro b hb
  simp at hb
  subst hb
  decide

theorem pIntField_exp (v : Int) (rest : GoStr) :
    pIntField "\x7d,\"exp\":" (gs "\x7d,\"exp\":" ++ (intDec v ++ (gs ",\"iat\":" ++ rest))) =
      some (v, gs ",\"iat\":" ++ rest) := by
  apply pIntField_self
  rw [show gs ",\"iat\":" = 44 :: gs "\"iat\":" from by decide, List.cons_append]
  intro b hb
  simp at hb
  subst hb
  decide

theorem pIntField_iat (v : Int) (rest : GoStr) :
    pIntField ",\"iat\":" (gs ",\"iat\":" ++ (intDec v ++ (gs ",\"jti\":" ++ rest))) =
      some (v, gs ",\"jti\":" ++ rest) := by
  apply pIntField_self
  rw [show gs ",\"jti\":" = 44 :: gs "\"jti\":" from by decide, List.cons_append]
  intro b hb
  simp at hb
  subst hb
  decide

theorem parseClaims_marshal (c : TicketClaims) : parseClaims (marshalClaims c) = some c := by
  obtain ⟨sid, cid, uid, did, ⟨sp, vid, scr⟩, ev, iv, jv⟩ := c
  have hend : pLit (gs "\x7d") (gs "\x7d") = some [] := by decide
  simp only [parseClaims, marshalClaims, List.append_assoc, pStrField_self,
    pBoolField_self, pIntField_exp, pIntField_iat, Option.some_bind, hend, if_true]

/-- Go strings are byte strings: every element is a byte. -/
abbrev ByteValid (s : GoStr) : Prop := ∀ b ∈ s, b < 256

theorem escByte_valid (b : Nat) (hb : b < 256) : ∀ x ∈ escByte b, x < 256 := by
  unfold escByte hexDigitChar
  split_ifs with h1 h2 h3 h4 h5 h6 <;> intro x hx <;> simp at hx <;> omega

theorem escBytes_valid (s : GoStr) (hs : ByteValid s) : ∀ x ∈ escBytes s, x < 256 := by
  induction s with
  | nil => simp [escBytes]
  | cons b t ih =>
    intro x hx
    rw [escBytes] at hx
    rcases List.mem_append.1 hx with hl | hr
    · exact escByte_valid b (hs b (by simp)) x hl
    · exact ih (fun y hy => hs y (by simp [hy])) x hr

theorem qstr_valid (s : GoStr) (hs : ByteValid s) : ∀ x ∈ qstr s, x < 256 := by
  intro x hx
  rw [qstr] at hx
  rcases List.mem_cons.1 hx with rfl | hx2
  · omega
  · rcases List.mem_append.1 hx2 with hl | hr
    · exact escBytes_valid s hs x hl
    · simp at hr; omega

theorem natDec_valid (n : Nat) : ∀ x ∈ natDec n, x < 256 := by
  intro x hx
  have := natDec_digits n x hx
  omega

theorem intDec_valid (n : Int) : ∀ x ∈ intDec n, x < 256 := by
  intro x hx
  rw [intDec] at hx
  split_ifs at hx with h
  · rcases List.mem_cons.1 hx with rfl | hx2
    · omega
    · exact natDec_valid _ x hx2
  · exact natDec_valid _ x hx

theorem boolDec_valid (b : Bool) : ∀ x ∈ boolDec b, x < 256 := by
  cases b <;> decide

theorem append_valid (a b : GoStr) (ha : ByteValid a) (hb : ByteValid b) :
    ByteValid (a ++ b) :=
  fun x hx => (List.mem_append.1 hx).elim (ha x) (hb x)

theorem marshalClaims_valid (c : TicketClaims)
    (h1 : ByteValid c.serverId) (h2 : ByteValid c.channelId)
    (h3 : ByteValid c.userUid) (h4 : ByteValid c.deviceId)
    (h5 : ByteValid c.jti) : ByteValid (marshalClaims c) := by
  unfold marshalClaims
  repeat' apply append_valid
  all_goals first
    | decide
    | exact qstr_valid _ h1
    | exact qstr_valid _ h2
    | exact qstr_valid _ h3
    | exact qstr_valid _ h4
    | exact qstr_valid _ h5
    | exact boolDec_valid _
    | exact intDec_valid _

theorem issue_parseTicketPure (sv : TokenSvc) (now : Int) (jti : GoStr)
    (inp : IssueTicketInput) (tk : GoStr) (cl : TicketClaims)
    (hsign : ∀ s, ByteValid (sv.sign s))
    (hsid : ByteValid inp.serverId) (hcid : ByteValid inp.channelId)
    (huid : ByteValid inp.userUid) (hdid : ByteValid inp.deviceId)
    (hjti : ByteValid jti)
    (hiss : issue sv now jti inp = some (tk, cl)) :
    parseTicketPure sv tk = some cl := by
  rw [issue] at hiss
  split_ifs at hiss with htrim
  simp only [Option.some.injEq, Prod.mk.injEq] at hiss
  obtain ⟨htk, hcl⟩ := hiss
  subst htk
  subst hcl
  have hm : ByteValid (marshalClaims
      ⟨inp.serverId, inp.channelId, inp.userUid, inp.deviceId, inp.permissions,
        now + sv.ttl, now, jti⟩) :=
    marshalClaims_valid _ hsid hcid huid hdid hjti
  have hsplit := splitDot_append (b64Encode (marshalClaims
      ⟨inp.serverId, inp.channelId, inp.userUid, inp.deviceId, inp.permissions,
        now + sv.ttl, now, jti⟩)) (b64Encode (sv.sign (b64Encode (marshalClaims
      ⟨inp.serverId, inp.channelId, inp.userUid, inp.deviceId, inp.permissions,
        now + sv.ttl, now, jti⟩))))
      (fun hmem => b64Encode_no_dot _ hm 46 hmem rfl)
      (fun hmem => b64Encode_no_dot _ (hsign _) 46 hmem rfl)
  rw [parseTicketPure, hsplit]
  simp only [b64_roundtrip _ (hsign _), Option.some_bind, eq_self_iff_true, if_true,
    b64_roundtrip _ hm, parseClaims_marshal]

theorem lookupJti_filter_none (st : JtiMap) (j : GoStr) (p : GoStr × Int → Bool)
    (h : lookupJti st j = none) : lookupJti (st.filter p) j = none := by
  induction st with
  | nil => rfl
  | cons e t ih =>
    obtain ⟨k, v⟩ := e
    rw [lookupJti] at h
    by_cases hk : k = j
    · rw [if_pos hk] at h
      exact absurd h (Option.some_ne_none v)
    · rw [if_neg hk] at h
      cases hp : p (k, v) <;> simp [List.filter, hp, lookupJti, hk, ih h]

theorem lookupJti_gc_none (st : JtiMap) (now : Int) (j : GoStr)
    (h : lookupJti st j = none) : lookupJti (gcJti st now) j = none := by
  rw [gcJti]
  split_ifs with hlen
  · exact h
  · exact lookupJti_filter_none st j _ h

/--
C2: for every issuance input with non-empty trimmed server and channel ids,
the ticket Issue returns, when passed to ParseAndConsume before its expiry
and before any other consumption of its jti, is accepted, and the returned
claims are exactly the claims Issue returned: the caller's server, channel,
user, device and all three permission flags, together with the
service-assigned issued-at, expiry and jti.
-/
theorem c2_issue_parse_roundtrip (sv : TokenSvc) (now t : Int) (jti : GoStr)
    (inp : IssueTicketInput) (st : JtiMap) (tk : GoStr) (cl : TicketClaims)
    (hsign : ∀ s, ByteValid (sv.sign s))
    (hsid : ByteValid inp.serverId) (hcid : ByteValid inp.channelId)
    (huid : ByteValid inp.userUid) (hdid : ByteValid inp.deviceId)
    (hjti : ByteValid jti)
    (hiss : issue sv now jti inp = some (tk, cl))
    (ht : t < cl.expiresAt)
    (hfresh : lookupJti st cl.jti = none) :
    parseAndConsume sv st t tk = (.ok cl, (cl.jti, cl.expiresAt) :: gcJti st t) ∧
      cl.serverId = inp.serverId ∧ cl.channelId = inp.channelId ∧
      cl.userUid = inp.userUid ∧ cl.deviceId = inp.deviceId ∧
      cl.permissions = inp.permissions ∧
      cl.issuedAt = now ∧ cl.expiresAt = now + sv.ttl ∧ cl.jti = jti := by
  have hparse := issue_parseTicketPure sv now jti inp tk cl hsign hsid hcid huid hdid hjti hiss
  have hfields : cl.serverId = inp.serverId ∧ cl.channelId = inp.channelId ∧
      cl.userUid = inp.userUid ∧ cl.deviceId = inp.deviceId ∧
      cl.permissions = inp.permissions ∧
      cl.issuedAt = now ∧ cl.expiresAt = now + sv.ttl ∧ cl.jti = jti := by
    rw [issue] at hiss
    split_ifs at hiss with htrim
    simp only [Option.some.injEq, Prod.mk.injEq] at hiss
    rw [← hiss.2]
    exact ⟨rfl, rfl, rfl, rfl, rfl, rfl, rfl, rfl⟩
  refine ⟨?_, hfields⟩
  have hpac : parseAndConsume sv st t tk = consumeClaims st t cl := by
    rw [parseAndConsume, hparse]
  rw [hpac, consumeClaims, if_neg (by omega)]
  simp [lookupJti_gc_none st t cl.jti hfresh]

/--
C6: a structurally and cryptographically valid ticket whose claims are
expired (expires-at at or before now, boundary included) is rejected as
expired before the replay check: for every state of the consumed-jti set the
result is the expired error and the set is returned unchanged.
-/
theorem c6_expired_before_replay (sv : TokenSvc) (st : JtiMap) (now : Int)
    (tk : GoStr) (cl : TicketClaims)
    (hparse : parseTicketPure sv tk = some cl)
    (hexp : cl.expiresAt ≤ now) :
    parseAndConsume sv st now tk = (.errExpired, st) := by
  have hpac : parseAndConsume sv st now tk = consumeClaims st now cl := by
    rw [parseAndConsume, hparse]
  rw [hpac, consumeClaims, if_pos hexp]

theorem lookupJti_filter_keep (st : JtiMap) (j : GoStr) (v : Int) (p : GoStr × Int → Bool)
    (h : lookupJti st j = some v) (hp : p (j, v) = true) :
    lookupJti (st.filter p) j = some v := by
  induction st with
  | nil => cases h
  | cons e t ih =>
    obtain ⟨k, w⟩ := e
    rw [lookupJti] at h
    by_cases hk : k = j
    · rw [if_pos hk] at h
      injection h with hv
      subst hk
      subst hv
      simp [List.filter, hp, lookupJti]
    · rw [if_neg hk] at h
      cases hpk : p (k, w) <;> simp [List.filter, hpk, lookupJti, hk, ih h]

theorem lookupJti_gc_keep (st : JtiMap) (now : Int) (j : GoStr) (v : Int)
    (h : lookupJti st j = some v) (hv : now < v) :
    lookupJti (gcJti st now) j = some v := by
  rw [gcJti]
  split_ifs with hlen
  · exact h
  · exact lookupJti_filter_keep st j v _ h (by simp [hv])

theorem consume_ok_inv (s : JtiMap) (t : Int) (c : TicketClaims)
    (h : (consumeClaims s t c).1 = ConsumeResult.ok c) :
    consumeClaims s t c = (.ok c, (c.jti, c.expiresAt) :: gcJti s t) ∧
      ¬ c.expiresAt ≤ t ∧ lookupJti (gcJti s t) c.jti = none := by
  rw [consumeClaims] at h ⊢
  split_ifs at h ⊢ with h1 h2
  exact ⟨rfl, h1, h2⟩

theorem consume_inv_step (s : JtiMap) (tx t2 : Int) (c c2 : TicketClaims)
    (hinv : lookupJti s c.jti = some c.expiresAt ∨ c.expiresAt ≤ t2)
    (htx : tx ≤ t2) :
    lookupJti (consumeClaims s tx c2).2 c.jti = some c.expiresAt ∨ c.expiresAt ≤ t2 := by
  rcases hinv with hl | hr
  · rw [consumeClaims]
    by_cases hce : c.expiresAt ≤ t2
    · exact Or.inr hce
    · have hkeep : lookupJti (gcJti s tx) c.jti = some c.expiresAt :=
        lookupJti_gc_keep s tx _ _ hl (by omega)
      split_ifs with hexp2 hnone
      · exact Or.inl hl
      · left
        rw [lookupJti]
        by_cases hjj : c2.jti = c.jti
        · rw [hjj] at hnone
          rw [hkeep] at hnone
          cases hnone
        · rw [if_neg hjj]
          exact hkeep
      · exact Or.inl hkeep
  · exact Or.inr hr

theorem pacSteps_append (sv : TokenSvc) (st0 : JtiMap) (a b : List (Int × GoStr)) :
    pacSteps sv st0 (a ++ b) = pacSteps sv (pacSteps sv st0 a) b := by
  induction a generalizing st0 with
  | nil => rfl
  | cons x rest ih => simp [pacSteps, ih]

theorem pac_inv_steps (sv : TokenSvc) (c : TicketClaims) (t2 : Int)
    (calls : List (Int × GoStr)) (s : JtiMap)
    (hinv : lookupJti s c.jti = some c.expiresAt ∨ c.expiresAt ≤ t2)
    (hts : ∀ x ∈ calls, x.1 ≤ t2) :
    lookupJti (pacSteps sv s calls) c.jti = some c.expiresAt ∨ c.expiresAt ≤ t2 := by
  induction calls generalizing s with
  | nil => exact hinv
  | cons x rest ih =>
    rw [pacSteps]
    refine ih _ ?_ (fun y hy => hts y (by simp [hy]))
    rw [parseAndConsume]
    cases hp : parseTicketPure sv x.2 with
    | none => exact hinv
    | some c2 => exact consume_inv_step s x.1 t2 c c2 hinv (hts x (by simp))

/--
C1 (amended): once ParseAndConsume has accepted a ticket, no later call of
the service with a ticket carrying the same jti ever succeeds again: so long
as call times do not exceed the final call time (times are nondecreasing in
a real run), the later call answers the replay error while the ticket is
unexpired and the expired error once its expiry has passed.  This holds over
arbitrary interleaved traffic, including calls that trigger the
5000-entry compaction of the consumed-jti set.
-/
theorem c1_consume_at_most_once (sv : TokenSvc) (st0 : JtiMap)
    (pre mid : List (Int × GoStr)) (t1 t2 : Int) (tk : GoStr) (c : TicketClaims)
    (hparse : parseTicketPure sv tk = some c)
    (hok : (parseAndConsume sv (pacSteps sv st0 pre) t1 tk).1 = ConsumeResult.ok c)
    (hmid : ∀ x ∈ mid, x.1 ≤ t2) :
    (if c.expiresAt ≤ t2 then
      (parseAndConsume sv (pacSteps sv st0 (pre ++ (t1, tk) :: mid)) t2 tk).1 =
        ConsumeResult.errExpired
    else
      (parseAndConsume sv (pacSteps sv st0 (pre ++ (t1, tk) :: mid)) t2 tk).1 =
        ConsumeResult.errReplay) := by
  have hsplitrun : pacSteps sv st0 (pre ++ (t1, tk) :: mid) =
      pacSteps sv (parseAndConsume sv (pacSteps sv st0 pre) t1 tk).2 mid := by
    rw [pacSteps_append]
    rfl
  have hc1 : parseAndConsume sv (pacSteps sv st0 pre) t1 tk =
      consumeClaims (pacSteps sv st0 pre) t1 c := by
    rw [parseAndConsume, hparse]
  rw [hc1] at hok
  obtain ⟨heq, hexp1, hnone⟩ := consume_ok_inv _ _ _ hok
  have hinv1 : lookupJti (parseAndConsume sv (pacSteps sv st0 pre) t1 tk).2 c.jti =
      some c.expiresAt ∨ c.expiresAt ≤ t2 := by
    rw [hc1, heq]
    left
    simp [lookupJti]
  have hinvf := pac_inv_steps sv c t2 mid _ hinv1 hmid
  rw [hsplitrun]
  have hcf : parseAndConsume sv
      (pacSteps sv (parseAndConsume sv (pacSteps sv st0 pre) t1 tk).2 mid) t2 tk =
      consumeClaims (pacSteps sv (parseAndConsume sv (pacSteps sv st0 pre) t1 tk).2 mid) t2 c := by
    rw [parseAndConsume, hparse]
  rw [hcf, consumeClaims]
  by_cases hexp : c.expiresAt ≤ t2
  · rw [if_pos hexp]
    simp [hexp]
  · rcases hinvf with hl | hr
    · have hkeep := lookupJti_gc_keep _ t2 _ _ hl (by omega)
      rw [if_neg hexp, if_neg hexp, if_neg (by simp [hkeep])]
    · omega

set_option maxRecDepth 100000

/-- A concrete service: ttl 10, with the signature function constantly empty. -/
def wSvc : TokenSvc := { sign := fun _ => [], ttl := 10 }

/-- A concrete issuance input. -/
def wInp : IssueTicketInput :=
  { serverId := gs "srv_local", channelId := gs "vc_general", userUid := gs "uid_a",
    deviceId := gs "dev_a", permissions := ⟨true, true, false⟩ }

/-- The claims Issue mints for wInp at time 0 with jti-1. -/
def wClaims : TicketClaims :=
  ⟨gs "srv_local", gs "vc_general", gs "uid_a", gs "dev_a", ⟨true, true, false⟩,
    10, 0, gs "jti-1"⟩

/-- The wire ticket for wClaims under wSvc. -/
def wTicket : GoStr := b64Encode (marshalClaims wClaims) ++ 46 :: b64Encode []

/--
C1 counterexample: the first consumption of the ticket succeeds, yet the
subsequent call with the very same ticket (same jti), made once the expiry
has been reached, answers the expired error and not the replay error the
claim promises for every subsequent call.
-/
theorem c1_counterexample_expired_not_replay :
    (parseAndConsume wSvc [] 5 wTicket).1 = ConsumeResult.ok wClaims ∧
    (parseAndConsume wSvc (parseAndConsume wSvc [] 5 wTicket).2 10 wTicket).1 =
      ConsumeResult.errExpired ∧
    ConsumeResult.errExpired ≠ ConsumeResult.errReplay := by
  refine ⟨by decide, by decide, by decide⟩

/-- Witness for the amended C1 theorem at a concrete run. -/
theorem c1_consume_at_most_once_witness :
    (if wClaims.expiresAt ≤ 7 then
      (parseAndConsume wSvc (pacSteps wSvc []
          ([] ++ (5, wTicket) :: [(6, gs "zz")])) 7 wTicket).1 =
        ConsumeResult.errExpired
    else
      (parseAndConsume wSvc (pacSteps wSvc []
          ([] ++ (5, wTicket) :: [(6, gs "zz")])) 7 wTicket).1 =
        ConsumeResult.errReplay) :=
  c1_consume_at_most_once wSvc [] [] [(6, gs "zz")] 5 7 wTicket wClaims
    (by decide) (by decide) (by decide)

/-- Witness for the C2 round-trip at a concrete issuance and consumption. -/
theorem c2_issue_parse_roundtrip_witness :
    parseAndConsume wSvc [] 5 wTicket =
      (.ok wClaims, (wClaims.jti, wClaims.expiresAt) :: gcJti [] 5) ∧
      wClaims.serverId = wInp.serverId ∧ wClaims.channelId = wInp.channelId ∧
      wClaims.userUid = wInp.userUid ∧ wClaims.deviceId = wInp.deviceId ∧
      wClaims.permissions = wInp.permissions ∧
      wClaims.issuedAt = 0 ∧ wClaims.expiresAt = 0 + wSvc.ttl ∧
      wClaims.jti = gs "jti-1" :=
  c2_issue_parse_roundtrip wSvc 0 5 (gs "jti-1") wInp [] wTicket wClaims
    (fun s b hb => absurd hb (List.not_mem_nil b))
    (by decide) (by decide) (by decide) (by decide) (by decide)
    (by decide) (by decide) rfl

/--
Witness for C6: a valid but expired ticket is rejected as expired and a
non-empty consumed-jti set is left untouched.
-/
theorem c6_expired_before_replay_witness :
    parseAndConsume wSvc [(gs "x", 3)] 10 wTicket = (.errExpired, [(gs "x", 3)]) :=
  c6_expired_before_replay wSvc [(gs "x", 3)] 10 wTicket wClaims (by decide) (by decide)

/-! ## Signaling fabric (SignalingService, wsClient, roomHub) -/

/-- Char-level ASCII whitespace test. -/
def isSpaceChar (c : Char) : Bool := isSpaceByte c.toNat

/-- Drop leading whitespace characters. -/
def trimLeftChars : List Char → List Char
  | [] => []
  | c :: t => if isSpaceChar c then trimLeftChars t else c :: t

/-- strings.TrimSpace on text strings (ASCII whitespace). -/
def trimStr (s : String) : String :=
  String.mk ((trimLeftChars ((trimLeftChars s.data).reverse)).reverse)

/-- strings.HasPrefix. -/
def strStartsWith (s pre : String) : Bool := pre.data.isPrefixOf s.data

/-- Text rendering of a byte string (claims fields crossing into participants). -/
def strOf (s : GoStr) : String := String.mk (s.map Char.ofNat)

/-- A JSON value carried in an envelope payload. -/
inductive JVal where
  | str (s : String)
  | boolv (b : Bool)
  | num (n : Int)
  | jnull
  | arr (xs : List JVal)
  | obj (fields : List (String × JVal))

/-- A decoded payload object: Go map from key to JSON value. -/
abbrev PMap := List (String × JVal)

/-- Go map read on a payload object. -/
def mapGet : PMap → String → Option JVal
  | [], _ => none
  | (k, v) :: t, key => if k = key then some v else mapGet t key

/-- Go map write on a payload object: replace or append. -/
def mapSet : PMap → String → JVal → PMap
  | [], key, v => [(key, v)]
  | (k, w) :: t, key, v =>
    if k = key then (key, v) :: t else (k, w) :: mapSet t key v

/-- The string type-assertion read (value, ok := m[k].(string)). -/
def getStr (m : PMap) (k : String) : String :=
  match mapGet m k with
  | some (.str s) => s
  | _ => ""

/--
rtc.Envelope.  An inbound payload is an optional JSON object: none models an
omitted (nil) payload, some fields a present object.
-/
structure Envelope where
  ty : String
  requestId : String
  channelId : String
  payload : Option PMap

/-- rtc.NewEnvelope for the server-built envelopes (payload always present). -/
def mkEnvelope (ty channelId requestId : String) (payload : PMap) : Envelope :=
  ⟨ty, requestId, channelId, some payload⟩

/-- rtc.Participant bound to a connection (joined_at carried as rendered text). -/
structure Participant where
  participantId : String
  channelId : String
  userUid : String
  deviceId : String
  permissions : Permissions
  joinedAt : String

/-- One room: participants keyed by participant id (roomHub map values). -/
abbrev Room := List (String × Participant)

/-- The room registry: rooms keyed by channel id (roomHub.rooms). -/
abbrev Registry := List (String × Room)

/-- Go map read on the registry. -/
def lookupRoom : Registry → String → Option Room
  | [], _ => none
  | (k, r) :: t, ch => if k = ch then some r else lookupRoom t ch

/-- Go map write on the registry. -/
def setRoom : Registry → String → Room → Registry
  | [], ch, r => [(ch, r)]
  | (k, w) :: t, ch, r =>
    if k = ch then (ch, r) :: t else (k, w) :: setRoom t ch r

/-- Go map delete on the registry. -/
def delRoom : Registry → String → Registry
  | [], _ => []
  | (k, w) :: t, ch => if k = ch then delRoom t ch else (k, w) :: delRoom t ch

/-- Room entries of a channel; a missing room reads as the empty map. -/
def roomEntries (reg : Registry) (ch : String) : Room :=
  (lookupRoom reg ch).getD []

/-- Member participants of a channel. -/
def roomMembers (reg : Registry) (ch : String) : List Participant :=
  (roomEntries reg ch).map Prod.snd

/-- Go map read on one room. -/
def lookupPid : Room → String → Option Participant
  | [], _ => none
  | (k, q) :: t, pid => if k = pid then some q else lookupPid t pid

/--
Events emitted by a handler: enqueue operations, each naming the receiving
participant id and the envelope put on its outbound queue.
-/
abbrev Events := List (String × Envelope)

/--
roomHub.register: under one critical section, snapshot the existing peers of
the channel and insert the client; returns the snapshot and the new registry.
-/
def register (reg : Registry) (client : Participant) : List Participant × Registry :=
  let room := roomEntries reg client.channelId
  (room.map Prod.snd,
    setRoom reg client.channelId (room ++ [(client.participantId, client)]))

/--
roomHub.unregister: remove the participant from its room and delete the room
when it becomes empty; a missing room is left alone.
-/
def unregister (reg : Registry) (channelId participantId : String) : Registry :=
  match lookupRoom reg channelId with
  | none => reg
  | some room =>
    let room2 := room.filter (fun e => decide (e.1 ≠ participantId))
    if room2.isEmpty then delRoom reg channelId
    else setRoom reg channelId room2

/--
roomHub.broadcast: enqueue the envelope to every member of the channel,
skipping the excepted participant when the exception is non-empty.
-/
def broadcast (reg : Registry) (channelId : String) (env : Envelope)
    (exceptId : String) : Events :=
  (roomEntries reg channelId).filterMap (fun e =>
    if exceptId ≠ "" ∧ e.1 = exceptId then none else some (e.1, env))

/--
roomHub.sendToParticipant: enqueue to the one targeted member of the channel
if present, reporting whether it was.
-/
def sendToParticipant (reg : Registry) (channelId participantId : String)
    (env : Envelope) : Bool × Events :=
  match lookupPid (roomEntries reg channelId) participantId with
  | none => (false, [])
  | some _ => (true, [(participantId, env)])

/-- wsClient.sendError: one rtc.error envelope onto the client's own queue. -/
def sendErrorEvs (p : Participant) (requestId code message : String)
    (retryable : Bool) : Events :=
  [(p.participantId, mkEnvelope "rtc.error" p.channelId requestId
    [("code", .str code), ("message", .str message), ("retryable", .boolv retryable)])]

/-- The trimmed stream_kind of an inbound media-state payload. -/
def streamKindOf (env : Envelope) : String :=
  trimStr (getStr (env.payload.getD []) "stream_kind")

/--
The relay branch of wsClient.relayMediaState: overlay the sender identity
onto the payload and broadcast to the whole room, the sender included.
-/
def mediaRelayEvents (p : Participant) (env : Envelope) (reg : Registry) : Events :=
  broadcast reg p.channelId
    (mkEnvelope "rtc.media.state" p.channelId env.requestId
      (mapSet (mapSet (env.payload.getD []) "participant_id" (.str p.participantId))
        "user_uid" (.str p.userUid)))
    ""

/--
wsClient.relayMediaState: permission gate on the trimmed stream kind, then
relay; a missing payload reads as the empty object.
-/
def relayMediaState (p : Participant) (env : Envelope) (reg : Registry) : Events :=
  if streamKindOf env = "" then mediaRelayEvents p env reg
  else if streamKindOf env = "video_camera" then
    if p.permissions.video then mediaRelayEvents p env reg
    else sendErrorEvs p env.requestId "rtc_media_denied"
      "participant is not allowed to publish camera video" false
  else if streamKindOf env = "video_screen" then
    if p.permissions.screenshare then mediaRelayEvents p env reg
    else sendErrorEvs p env.requestId "rtc_media_denied"
      "participant is not allowed to publish screen share" false
  else if strStartsWith (streamKindOf env) "audio" && !p.permissions.speak then
    sendErrorEvs p env.requestId "rtc_media_denied"
      "participant is not allowed to publish audio" false
  else mediaRelayEvents p env reg

/-- The payload of a forwarded signal: sender id injected. -/
def forwardPayloadOf (p : Participant) (env : Envelope) : PMap :=
  mapSet (env.payload.getD []) "from_participant_id" (.str p.participantId)

/-- The trimmed target participant id read back from the injected payload. -/
def targetIdOf (p : Participant) (env : Envelope) : String :=
  trimStr (getStr (forwardPayloadOf p env) "target_participant_id")

/--
wsClient.forwardSignal: targeted delivery when a target id is present (an
absent target yields the retryable not-found error to the sender), room
broadcast excluding the sender otherwise.
-/
def forwardSignal (p : Participant) (env : Envelope) (reg : Registry) : Events :=
  if targetIdOf p env ≠ "" then
    if (sendToParticipant reg p.channelId (targetIdOf p env)
        (mkEnvelope env.ty p.channelId env.requestId (forwardPayloadOf p env))).1 then
      (sendToParticipant reg p.channelId (targetIdOf p env)
        (mkEnvelope env.ty p.channelId env.requestId (forwardPayloadOf p env))).2
    else
      sendErrorEvs p env.requestId "rtc_target_not_found"
        "target participant is not available" true
  else
    broadcast reg p.channelId
      (mkEnvelope env.ty p.channelId env.requestId (forwardPayloadOf p env))
      p.participantId

/-- The rtc.participant.left announcement for a departing participant. -/
def leftEnvelope (p : Participant) : Envelope :=
  mkEnvelope "rtc.participant.left" p.channelId ""
    [("participant", .obj [("participant_id", .str p.participantId),
      ("user_uid", .str p.userUid)])]

/--
wsClient.closeConnection (the registry-visible part): for a joined client,
unregister from the room first, then broadcast the leave announcement over
the updated registry with no exception.
-/
def closeConnection (p : Participant) (reg : Registry) : Registry × Events :=
  if p.channelId ≠ "" then
    (unregister reg p.channelId p.participantId,
      broadcast (unregister reg p.channelId p.participantId) p.channelId
        (leftEnvelope p) "")
  else (reg, [])

/--
wsClient.handleEnvelope: the post-join dispatch.  nowTs is the rendered
timestamp the pong carries.  The result is the updated registry (rtc.leave
tears the connection down) and the enqueue events.
-/
def handleEnvelope (p : Participant) (env : Envelope) (reg : Registry)
    (nowTs : String) : Registry × Events :=
  if env.ty = "rtc.ping" then
    (reg, [(p.participantId,
      mkEnvelope "rtc.pong" p.channelId env.requestId [("ts", .str nowTs)])])
  else if env.ty = "rtc.leave" then closeConnection p reg
  else if env.ty = "rtc.media.state" then (reg, relayMediaState p env reg)
  else if env.ty = "rtc.offer.publish" ∨ env.ty = "rtc.offer.subscribe" ∨
      env.ty = "rtc.answer.publish" ∨ env.ty = "rtc.answer.subscribe" ∨
      env.ty = "rtc.ice.candidate" then
    (reg, forwardSignal p env reg)
  else
    (reg, sendErrorEvs p env.requestId "rtc_unknown_event"
      "unsupported signaling event type" false)

/-- The participant summary map used by rtc.joined and rtc.participant.joined. -/
def participantSummary (p : Participant) : JVal :=
  .obj [("participant_id", .str p.participantId),
    ("channel_id", .str p.channelId),
    ("user_uid", .str p.userUid),
    ("device_id", .str p.deviceId),
    ("permissions", .obj [("speak", .boolv p.permissions.speak),
      ("video", .boolv p.permissions.video),
      ("screenshare", .boolv p.permissions.screenshare)]),
    ("joined_at", .str p.joinedAt)]

/--
The tail of wsClient.waitForJoin after the ticket was consumed: register
atomically (snapshot plus insert), enqueue rtc.joined to self with the
snapshot, and broadcast rtc.participant.joined to the others.
-/
def completeJoin (p : Participant) (reg : Registry) (requestId : String) :
    Registry × Events :=
  ((register reg p).2,
    (p.participantId, mkEnvelope "rtc.joined" p.channelId requestId
      [("participant_id", .str p.participantId),
        ("channel_id", .str p.channelId),
        ("participants", .arr (((register reg p).1).map participantSummary)),
        ("joined_at", .str p.joinedAt)]) ::
      broadcast (register reg p).2 p.channelId
        (mkEnvelope "rtc.participant.joined" p.channelId ""
          [("participant", participantSummary p)])
        p.participantId)

/--
Extraction of payload.ticket in waitForJoin: a nil payload fails
json.Unmarshal, an object payload reads the ticket string (absent reads as
empty, a non-string ticket is an unmarshal type error).
-/
def joinTicketFromPayload (payload : Option PMap) : Except String String :=
  match payload with
  | none => .error "invalid rtc.join payload"
  | some m =>
    match mapGet m "ticket" with
    | some (.str s) => .ok s
    | none => .ok ""
    | some _ => .error "invalid rtc.join payload"

/-- The error strings of the token service errors. -/
def consumeErrMsg : ConsumeResult → String
  | .ok _ => ""
  | .errInvalid => "invalid join ticket"
  | .errExpired => "join ticket expired"
  | .errReplay => "join ticket replayed"

/-- The join-denial reply readPump sends when waitForJoin fails. -/
def preJoinErrorEvs (selfId msg : String) : Events :=
  [(selfId, mkEnvelope "rtc.error" "" ""
    [("code", .str "rtc_join_denied"), ("message", .str msg),
      ("retryable", .boolv false)])]

/--
wsClient.waitForJoin over the first inbound envelope (selfId the fresh
connection id, joinedAt the rendered join time): returns the token-service
state, the registry and the enqueue events after the handshake.
-/
def waitForJoin (sv : TokenSvc) (st : JtiMap) (now : Int)
    (selfId joinedAt : String) (reg : Registry) (env : Envelope) :
    JtiMap × Registry × Events :=
  if env.ty ≠ "rtc.join" then
    (st, reg, preJoinErrorEvs selfId "first signaling message must be rtc.join")
  else
    match joinTicketFromPayload env.payload with
    | .error msg => (st, reg, preJoinErrorEvs selfId msg)
    | .ok ticket =>
      match parseAndConsume sv st now (gs (trimStr ticket)) with
      | (.ok claims, st2) =>
        let participant : Participant :=
          { participantId := selfId, channelId := strOf claims.channelId,
            userUid := strOf claims.userUid, deviceId := strOf claims.deviceId,
            permissions := claims.permissions, joinedAt := joinedAt }
        (st2, (completeJoin participant reg env.requestId).1,
          (completeJoin participant reg env.requestId).2)
      | (r, st2) => (st2, reg, preJoinErrorEvs selfId (consumeErrMsg r))

/-! ## HTTP join-ticket handler (issueJoinTicket) -/

/-- Outcome of the join-ticket HTTP handler. -/
inductive JoinTicketResp where
  | httpError (status : Nat) (code : String)
  | ok (ticket : GoStr) (claims : TicketClaims)
deriving DecidableEq

/--
Server.issueJoinTicket: validate the channel and server, then mint a ticket
for the requesting identity with speak, video and screenshare all granted.
chanExists, isVoice and serverExists model the chat-directory collaborator,
defaultSrv the capability document server id, uid and did the
request-identity headers.
-/
def issueJoinTicket (sv : TokenSvc) (now : Int) (jti : GoStr)
    (chanExists isVoice serverExists : String → Bool)
    (defaultSrv uid did : String) (channelIDRaw bodySrv : String) :
    JoinTicketResp :=
  if trimStr channelIDRaw = "" then .httpError 400 "invalid_channel"
  else if !chanExists (trimStr channelIDRaw) then .httpError 404 "channel_not_found"
  else if !isVoice (trimStr channelIDRaw) then .httpError 400 "invalid_channel_type"
  else if !serverExists (if trimStr bodySrv = "" then defaultSrv else trimStr bodySrv) then
    .httpError 404 "server_not_found"
  else
    match issue sv now jti
      { serverId := gs (if trimStr bodySrv = "" then defaultSrv else trimStr bodySrv),
        channelId := gs (trimStr channelIDRaw), userUid := gs uid, deviceId := gs did,
        permissions := ⟨true, true, true⟩ } with
    | none => .httpError 400 "rtc_ticket_issue_failed"
    | some (tk, cl) => .ok tk cl

theorem lookupRoom_setRoom_self (reg : Registry) (ch : String) (r : Room) :
    lookupRoom (setRoom reg ch r) ch = some r := by
  induction reg with
  | nil => simp [setRoom, lookupRoom]
  | cons e t ih =>
    obtain ⟨k, w⟩ := e
    by_cases hk : k = ch
    · simp [setRoom, hk, lookupRoom]
    · simp [setRoom, hk, lookupRoom, ih]

theorem lookupRoom_setRoom_other (reg : Registry) (ch chq : String) (r : Room)
    (hne : chq ≠ ch) : lookupRoom (setRoom reg ch r) chq = lookupRoom reg chq := by
  induction reg with
  | nil => simp [setRoom, lookupRoom, Ne.symm hne]
  | cons e t ih =>
    obtain ⟨k, w⟩ := e
    by_cases hk : k = ch
    · subst hk
      simp [setRoom, lookupRoom, hne, Ne.symm hne]
    · simp [setRoom, hk, lookupRoom, ih]

theorem lookupRoom_delRoom_self (reg : Registry) (ch : String) :
    lookupRoom (delRoom reg ch) ch = none := by
  induction reg with
  | nil => rfl
  | cons e t ih =>
    obtain ⟨k, w⟩ := e
    rw [delRoom]
    by_cases hk : k = ch
    · rw [if_pos hk]
      exact ih
    · rw [if_neg hk, lookupRoom, if_neg hk]
      exact ih

theorem lookupRoom_delRoom_other (reg : Registry) (ch chq : String) (hne : chq ≠ ch) :
    lookupRoom (delRoom reg ch) chq = lookupRoom reg chq := by
  induction reg with
  | nil => rfl
  | cons e t ih =>
    obtain ⟨k, w⟩ := e
    rw [delRoom]
    by_cases hk : k = ch
    · rw [if_pos hk, lookupRoom, if_neg (by rw [hk]; exact fun h => hne h.symm)]
      exact ih
    · rw [if_neg hk, lookupRoom, lookupRoom]
      by_cases hkq : k = chq
      · rw [if_pos hkq, if_pos hkq]
      · rw [if_neg hkq, if_neg hkq]
        exact ih

theorem broadcast_no_except (reg : Registry) (ch : String) (env : Envelope) :
    broadcast reg ch env "" = (roomEntries reg ch).map (fun e => (e.1, env)) := by
  rw [broadcast]
  induction roomEntries reg ch with
  | nil => rfl
  | cons e t ih =>
    rw [List.filterMap_cons, if_neg (by simp), ih, List.map_cons]

theorem roomEntries_unregister (reg : Registry) (ch pid : String) :
    roomEntries (unregister reg ch pid) ch =
      (roomEntries reg ch).filter (fun e => decide (e.1 ≠ pid)) := by
  rw [unregister]
  cases hr : lookupRoom reg ch with
  | none => simp [roomEntries, hr]
  | some room =>
    simp only [roomEntries, hr, Option.getD_some]
    by_cases hempty : (room.filter (fun e => decide (e.1 ≠ pid))).isEmpty
    · rw [if_pos hempty, lookupRoom_delRoom_self]
      simp only [Option.getD_none]
      exact (List.isEmpty_iff.1 hempty).symm
    · rw [if_neg hempty, lookupRoom_setRoom_self]
      rfl

/--
C9 (amended, post-join half): after the join, every handler treats an
omitted payload exactly as the empty JSON object: dispatching any envelope
with no payload is identical to dispatching the same envelope with the
empty-object payload.
-/
theorem c9_missing_payload_as_empty (p : Participant) (env : Envelope)
    (reg : Registry) (ts : String) :
    handleEnvelope p { env with payload := none } reg ts =
      handleEnvelope p { env with payload := some [] } reg ts := rfl

/--
C9 counterexample: in the pre-join phase the envelope with an omitted
payload is not processed like the same envelope with the empty-object
payload: the nil payload fails the rtc.join payload parse, producing a
different join-denial message.
-/
theorem c9_counterexample_prejoin_differs :
    waitForJoin wSvc [] 0 "p1" "t0" [] ⟨"rtc.join", "", "", none⟩ ≠
      waitForJoin wSvc [] 0 "p1" "t0" [] ⟨"rtc.join", "", "", some []⟩ := by
  intro h
  have h2 := congrArg (fun r : JtiMap × Registry × Events =>
    match r.2.2 with
    | (_, e) :: _ => getStr (e.payload.getD []) "message"
    | [] => "") h
  exact absurd h2 (by decide)

/--
C3: an rtc.media.state envelope whose trimmed stream kind demands a
permission the sender lacks (camera without video, screen without
screenshare, an audio-prefixed kind without speak) leaves the registry
unchanged and enqueues exactly one envelope: the non-retryable
rtc_media_denied error, echoing the request id, onto the sender's own queue.
-/
theorem c3_media_denied_sender_only (p : Participant) (env : Envelope)
    (reg : Registry) (ts : String)
    (hty : env.ty = "rtc.media.state")
    (hdeny : (streamKindOf env = "video_camera" ∧ p.permissions.video = false) ∨
      (streamKindOf env = "video_screen" ∧ p.permissions.screenshare = false) ∨
      (strStartsWith (streamKindOf env) "audio" = true ∧ p.permissions.speak = false)) :
    (handleEnvelope p env reg ts).1 = reg ∧
    ∃ msg, (handleEnvelope p env reg ts).2 =
      [(p.participantId, mkEnvelope "rtc.error" p.channelId env.requestId
        [("code", .str "rtc_media_denied"), ("message", .str msg),
          ("retryable", .boolv false)])] := by
  have hdisp : handleEnvelope p env reg ts = (reg, relayMediaState p env reg) := by
    rw [handleEnvelope, if_neg (by rw [hty]; decide), if_neg (by rw [hty]; decide),
      if_pos hty]
  rcases hdeny with ⟨hsk, hperm⟩ | ⟨hsk, hperm⟩ | ⟨hsk, hperm⟩
  · refine ⟨by rw [hdisp], "participant is not allowed to publish camera video", ?_⟩
    rw [hdisp, relayMediaState, if_neg (by rw [hsk]; decide), if_pos hsk, hperm]
    rfl
  · refine ⟨by rw [hdisp], "participant is not allowed to publish screen share", ?_⟩
    rw [hdisp, relayMediaState, if_neg (by rw [hsk]; decide),
      if_neg (by rw [hsk]; decide), if_pos hsk, hperm]
    rfl
  · have h1 : ¬ streamKindOf env = "" := by
      intro h
      rw [h] at hsk
      exact absurd hsk (by decide)
    have h2 : ¬ streamKindOf env = "video_camera" := by
      intro h
      rw [h] at hsk
      exact absurd hsk (by decide)
    have h3 : ¬ streamKindOf env = "video_screen" := by
      intro h
      rw [h] at hsk
      exact absurd hsk (by decide)
    refine ⟨by rw [hdisp], "participant is not allowed to publish audio", ?_⟩
    rw [hdisp, relayMediaState, if_neg h1, if_neg h2, if_neg h3,
      if_pos (by rw [hsk, hperm]; rfl)]
    rfl

/--
C4: a signaling envelope of one of the five forwarded types with a
non-empty trimmed target id leaves the registry unchanged; it is delivered,
with the sender id injected as from_participant_id and the type and request
id preserved, to exactly the targeted member of the sender's room when that
member is registered, and otherwise the sender alone receives the retryable
rtc_target_not_found error echoing the request id.
-/
theorem c4_forward_targeted (p : Participant) (env : Envelope) (reg : Registry)
    (ts : String)
    (hty : env.ty = "rtc.offer.publish" ∨ env.ty = "rtc.offer.subscribe" ∨
      env.ty = "rtc.answer.publish" ∨ env.ty = "rtc.answer.subscribe" ∨
      env.ty = "rtc.ice.candidate")
    (htgt : targetIdOf p env ≠ "") :
    (handleEnvelope p env reg ts).1 = reg ∧
    (∀ q, lookupPid (roomEntries reg p.channelId) (targetIdOf p env) = some q →
      (handleEnvelope p env reg ts).2 =
        [(targetIdOf p env,
          mkEnvelope env.ty p.channelId env.requestId (forwardPayloadOf p env))]) ∧
    (lookupPid (roomEntries reg p.channelId) (targetIdOf p env) = none →
      (handleEnvelope p env reg ts).2 =
        [(p.participantId, mkEnvelope "rtc.error" p.channelId env.requestId
          [("code", .str "rtc_target_not_found"),
            ("message", .str "target participant is not available"),
            ("retryable", .boolv true)])]) := by
  have hne1 : ¬ env.ty = "rtc.ping" := by
    rcases hty with h | h | h | h | h <;> rw [h] <;> decide
  have hne2 : ¬ env.ty = "rtc.leave" := by
    rcases hty with h | h | h | h | h <;> rw [h] <;> decide
  have hne3 : ¬ env.ty = "rtc.media.state" := by
    rcases hty with h | h | h | h | h <;> rw [h] <;> decide
  have hdisp : handleEnvelope p env reg ts = (reg, forwardSignal p env reg) := by
    rw [handleEnvelope, if_neg hne1, if_neg hne2, if_neg hne3, if_pos hty]
  refine ⟨by rw [hdisp], ?_, ?_⟩
  · intro q hq
    rw [hdisp]
    show forwardSignal p env reg = _
    rw [forwardSignal, if_pos htgt, sendToParticipant, hq]
    rfl
  · intro hq
    rw [hdisp]
    show forwardSignal p env reg = _
    rw [forwardSignal, if_pos htgt, sendToParticipant, hq]
    rfl

/--
C5: the participants list in the rtc.joined envelope sent to a joining
participant is exactly the snapshot of the members its room held when the
participant was inserted, the fresh participant itself excluded, and after
the join the room holds the snapshot plus the new participant.
-/
theorem c5_joined_snapshot (p : Participant) (reg : Registry) (reqId : String)
    (hfresh : p.participantId ∉
      (roomMembers reg p.channelId).map Participant.participantId) :
    (completeJoin p reg reqId).2.head? = some (p.participantId,
      mkEnvelope "rtc.joined" p.channelId reqId
        [("participant_id", .str p.participantId),
          ("channel_id", .str p.channelId),
          ("participants", .arr ((roomMembers reg p.channelId).map participantSummary)),
          ("joined_at", .str p.joinedAt)]) ∧
    p.participantId ∉ (roomMembers reg p.channelId).map Participant.participantId ∧
    roomMembers (completeJoin p reg reqId).1 p.channelId =
      roomMembers reg p.channelId ++ [p] := by
  refine ⟨rfl, hfresh, ?_⟩
  show roomMembers (register reg p).2 p.channelId = _
  rw [register]
  show roomMembers (setRoom reg p.channelId
    (roomEntries reg p.channelId ++ [(p.participantId, p)])) p.channelId = _
  rw [roomMembers, roomEntries, lookupRoom_setRoom_self]
  simp [roomMembers, roomEntries]


theorem lookupPid_filter_ne (room : Room) (pid : String) :
    lookupPid (room.filter (fun e => decide (e.1 ≠ pid))) pid = none := by
  induction room with
  | nil => rfl
  | cons e t ih =>
    obtain ⟨k, q⟩ := e
    rw [List.filter_cons]
    by_cases hk : k = pid
    · rw [if_neg (by simp [hk])]
      exact ih
    · rw [if_pos (by simp [hk]), lookupPid, if_neg hk]
      exact ih

/--
C7: on teardown of a joined participant, the participant is removed from
its room strictly before the leave announcement is broadcast: the resulting
registry is the unregistered one, the announcement goes exactly to the
remaining entries of the room, never to the departed participant, and the
departed participant is no longer enumerable in the room it is announced to
have left.
-/
theorem c7_left_after_removal (p : Participant) (reg : Registry)
    (hch : p.channelId ≠ "") :
    (closeConnection p reg).1 = unregister reg p.channelId p.participantId ∧
    (closeConnection p reg).2 =
      ((roomEntries reg p.channelId).filter
        (fun e => decide (e.1 ≠ p.participantId))).map
        (fun e => (e.1, leftEnvelope p)) ∧
    p.participantId ∉ ((closeConnection p reg).2).map Prod.fst ∧
    lookupPid (roomEntries (closeConnection p reg).1 p.channelId)
      p.participantId = none := by
  have hclose : closeConnection p reg =
      (unregister reg p.channelId p.participantId,
        broadcast (unregister reg p.channelId p.participantId) p.channelId
          (leftEnvelope p) "") := by
    rw [closeConnection, if_pos hch]
  have hevs : (closeConnection p reg).2 =
      ((roomEntries reg p.channelId).filter
        (fun e => decide (e.1 ≠ p.participantId))).map
        (fun e => (e.1, leftEnvelope p)) := by
    rw [hclose]
    show broadcast _ _ _ "" = _
    rw [broadcast_no_except, roomEntries_unregister]
  refine ⟨by rw [hclose], hevs, ?_, ?_⟩
  · rw [hevs]
    intro hmem
    simp only [List.map_map, List.mem_map, Function.comp, List.mem_filter] at hmem
    obtain ⟨e, ⟨hmem2, hne⟩, heq⟩ := hmem
    rw [heq] at hne
    simp at hne
  · rw [hclose]
    show lookupPid (roomEntries (unregister reg p.channelId p.participantId)
      p.channelId) p.participantId = none
    rw [roomEntries_unregister]
    exact lookupPid_filter_ne _ _

/-- One serialised operation on the room registry. -/
inductive RegOp where
  | register (p : Participant)
  | unregister (channelId participantId : String)

/-- Apply one registry operation. -/
def applyOp (r : Registry) : RegOp → Registry
  | .register p => (register r p).2
  | .unregister ch pid => unregister r ch pid

/-- Run a sequence of registry operations from a registry. -/
def runOps (r : Registry) (ops : List RegOp) : Registry := ops.foldl applyOp r

/-- No channel of a registry maps to an empty room. -/
def NoEmptyRooms (r : Registry) : Prop :=
  ∀ ch room, lookupRoom r ch = some room → room ≠ []

theorem applyOp_no_empty (r : Registry) (op : RegOp) (h : NoEmptyRooms r) :
    NoEmptyRooms (applyOp r op) := by
  cases op with
  | register p =>
    intro ch room hroom
    rw [applyOp] at hroom
    show room ≠ []
    rw [register] at hroom
    by_cases hch : ch = p.channelId
    · subst hch
      rw [lookupRoom_setRoom_self] at hroom
      injection hroom with he
      subst he
      simp
    · rw [lookupRoom_setRoom_other _ _ _ _ hch] at hroom
      exact h ch room hroom
  | unregister chu pid =>
    intro ch room hroom
    rw [applyOp, unregister] at hroom
    split at hroom
    · exact h ch room hroom
    · rename_i room0 hlook
      simp only at hroom
      split at hroom
      · by_cases hch : ch = chu
        · subst hch
          rw [lookupRoom_delRoom_self] at hroom
          cases hroom
        · rw [lookupRoom_delRoom_other _ _ _ hch] at hroom
          exact h ch room hroom
      · rename_i hempty
        by_cases hch : ch = chu
        · subst hch
          rw [lookupRoom_setRoom_self] at hroom
          injection hroom with he
          subst he
          intro hnil
          rw [hnil] at hempty
          exact hempty rfl
        · rw [lookupRoom_setRoom_other _ _ _ _ hch] at hroom
          exact h ch room hroom

theorem runOps_no_empty (ops : List RegOp) (r : Registry) (h : NoEmptyRooms r) :
    NoEmptyRooms (runOps r ops) := by
  induction ops generalizing r with
  | nil => exact h
  | cons op rest ih => exact ih _ (applyOp_no_empty r op h)

/--
C8: starting from the fresh registry, after any sequence of register and
unregister operations no channel maps to an empty room: register only
creates a room together with its first member, and unregister deletes a
room that loses its last member.
-/
theorem c8_no_empty_rooms (ops : List RegOp) (ch : String) (room : Room)
    (h : lookupRoom (runOps [] ops) ch = some room) : room ≠ [] :=
  runOps_no_empty ops [] (fun _ _ hx => by cases hx) ch room h

/--
C10: every ticket minted through the HTTP join-ticket handler carries
permissions with speak, video and screenshare all true, whatever the
requester, device, channel or server; and a participant holding all-true
permissions passes every stream-kind check of the media-state relay, so its
media state is always relayed and never denied.
-/
theorem issue_perms (sv : TokenSvc) (now : Int) (jti : GoStr)
    (inp : IssueTicketInput) (tk : GoStr) (cl : TicketClaims)
    (h : issue sv now jti inp = some (tk, cl)) : cl.permissions = inp.permissions := by
  rw [issue] at h
  split_ifs at h
  simp only [Option.some.injEq, Prod.mk.injEq] at h
  rw [← h.2]

theorem c10_join_tickets_grant_all (sv : TokenSvc) (now : Int) (jti : GoStr)
    (chanExists isVoice serverExists : String → Bool)
    (defaultSrv uid did channelIDRaw bodySrv : String)
    (p : Participant) (reg : Registry) :
    (∀ tk cl, issueJoinTicket sv now jti chanExists isVoice serverExists
        defaultSrv uid did channelIDRaw bodySrv = .ok tk cl →
      cl.permissions = ⟨true, true, true⟩) ∧
    (p.permissions = ⟨true, true, true⟩ →
      ∀ env, relayMediaState p env reg = mediaRelayEvents p env reg) := by
  constructor
  · intro tk cl hok
    rw [issueJoinTicket] at hok
    split_ifs at hok
    all_goals
      split at hok
    all_goals first
      | exact JoinTicketResp.noConfusion hok
      | (rename_i tk2 cl2 hiss
         injection hok with htk hcl
         rw [← hcl]
         exact issue_perms _ _ _ _ _ _ hiss)
  · intro hperm env
    rw [relayMediaState]
    split_ifs
    all_goals first
      | rfl
      | (rename_i hcond
         rw [hperm] at hcond
         simp at hcond)

/-- A member with speak and screenshare but no video permission. -/
def pA : Participant := ⟨"A", "vc", "uA", "dA", ⟨true, false, true⟩, "tA"⟩

/-- A member with all permissions. -/
def pB : Participant := ⟨"B", "vc", "uB", "dB", ⟨true, true, true⟩, "tB"⟩

/-- A registry with one room holding pA and pB. -/
def regAB : Registry := [("vc", [("A", pA), ("B", pB)])]

/-- A camera media-state envelope from a sender lacking video permission. -/
def envCam : Envelope :=
  ⟨"rtc.media.state", "r1", "vc", some [("stream_kind", .str "video_camera")]⟩

/-- Witness for C3: pA lacks video and publishes camera state. -/
theorem c3_media_denied_sender_only_witness :
    (handleEnvelope pA envCam regAB "ts").1 = regAB ∧
    ∃ msg, (handleEnvelope pA envCam regAB "ts").2 =
      [(pA.participantId, mkEnvelope "rtc.error" pA.channelId envCam.requestId
        [("code", .str "rtc_media_denied"), ("message", .str msg),
          ("retryable", .boolv false)])] :=
  c3_media_denied_sender_only pA envCam regAB "ts" rfl (Or.inl ⟨by decide, rfl⟩)

/-- A publish offer from pA targeted at pB. -/
def envOffer : Envelope :=
  ⟨"rtc.offer.publish", "r2", "vc", some [("target_participant_id", .str "B")]⟩

/-- Witness for C4: the offer reaches exactly pB with the sender injected. -/
theorem c4_forward_targeted_witness :
    (handleEnvelope pA envOffer regAB "ts").1 = regAB ∧
    (∀ q, lookupPid (roomEntries regAB pA.channelId) (targetIdOf pA envOffer) = some q →
      (handleEnvelope pA envOffer regAB "ts").2 =
        [(targetIdOf pA envOffer, mkEnvelope envOffer.ty pA.channelId
          envOffer.requestId (forwardPayloadOf pA envOffer))]) ∧
    (lookupPid (roomEntries regAB pA.channelId) (targetIdOf pA envOffer) = none →
      (handleEnvelope pA envOffer regAB "ts").2 =
        [(pA.participantId, mkEnvelope "rtc.error" pA.channelId envOffer.requestId
          [("code", .str "rtc_target_not_found"),
            ("message", .str "target participant is not available"),
            ("retryable", .boolv true)])]) :=
  c4_forward_targeted pA envOffer regAB "ts" (Or.inl rfl) (by decide)

/-- Witness for C5: pB joins a room already holding pA. -/
theorem c5_joined_snapshot_witness :
    (completeJoin pB [("vc", [("A", pA)])] "rq").2.head? = some (pB.participantId,
      mkEnvelope "rtc.joined" pB.channelId "rq"
        [("participant_id", .str pB.participantId),
          ("channel_id", .str pB.channelId),
          ("participants", .arr ((roomMembers [("vc", [("A", pA)])] pB.channelId).map
            participantSummary)),
          ("joined_at", .str pB.joinedAt)]) ∧
    pB.participantId ∉ (roomMembers [("vc", [("A", pA)])] pB.channelId).map
      Participant.participantId ∧
    roomMembers (completeJoin pB [("vc", [("A", pA)])] "rq").1 pB.channelId =
      roomMembers [("vc", [("A", pA)])] pB.channelId ++ [pB] :=
  c5_joined_snapshot pB [("vc", [("A", pA)])] "rq" (by decide)

/-- Witness for C7: pA leaves the two-member room. -/
theorem c7_left_after_removal_witness :
    (closeConnection pA regAB).1 = unregister regAB pA.channelId pA.participantId ∧
    (closeConnection pA regAB).2 =
      ((roomEntries regAB pA.channelId).filter
        (fun e => decide (e.1 ≠ pA.participantId))).map
        (fun e => (e.1, leftEnvelope pA)) ∧
    pA.participantId ∉ ((closeConnection pA regAB).2).map Prod.fst ∧
    lookupPid (roomEntries (closeConnection pA regAB).1 pA.channelId)
      pA.participantId = none :=
  c7_left_after_removal pA regAB (by decide)

/-- Witness for C8: a run of two registrations and one unregistration. -/
theorem c8_no_empty_rooms_witness : ([("B", pB)] : Room) ≠ [] :=
  c8_no_empty_rooms
    [RegOp.register pA, RegOp.register pB, RegOp.unregister "vc" "A"]
    "vc" [("B", pB)] rfl

/-- The claims the join-ticket handler mints in the witness scenario. -/
def c10Claims : TicketClaims :=
  ⟨gs "srv", gs "vc", gs "u", gs "d", ⟨true, true, true⟩, 10, 0, gs "j"⟩

/-- The ticket of c10Claims under wSvc. -/
def c10Ticket : GoStr := b64Encode (marshalClaims c10Claims) ++ 46 :: b64Encode []

/-- Witness for C10 at a concrete handler call and a concrete relay. -/
theorem c10_join_tickets_grant_all_witness :
    c10Claims.permissions = ⟨true, true, true⟩ ∧
    relayMediaState pB envCam regAB = mediaRelayEvents pB envCam regAB :=
  ⟨(c10_join_tickets_grant_all wSvc 0 (gs "j") (fun c => c = "vc") (fun c => c = "vc")
      (fun s => s = "srv") "srv" "u" "d" "vc" "" pB regAB).1 c10Ticket c10Claims
      (by decide),
    (c10_join_tickets_grant_all wSvc 0 (gs "j") (fun c => c = "vc") (fun c => c = "vc")
      (fun s => s = "srv") "srv" "u" "d" "vc" "" pB regAB).2 rfl envCam⟩
